import Mathlib

/-!
Shallow embedding of the GoT_Network_Bokeh pipeline (src/main.py).

The script queries Neo4j for character-interaction records, filters them with
pandas, builds an undirected networkx graph, and wires two Bokeh CustomJS
callbacks (a text filter and a selection-highlight handler).  The embedding
below translates, from the source:
  * the record preprocessing (lines 37-47): the `weight >= 2` filter, the
    self-loop filter and the `relation -> edge_color` dict map (pandas `.map`
    yields NaN, i.e. `none`, on a missing key);
  * `nx.from_pandas_edgelist` (line 52) restricted to what the script uses:
    an undirected simple graph whose edge attributes are taken from the rows
    in order, a later row with the same unordered endpoint pair overwriting
    the attributes of the existing edge;
  * the per-node attribute loop (lines 55-59) storing `degree` and the
    incident `(relation, weight)` pairs;
  * the two CustomJS callbacks (lines 108-156) over the Bokeh column data:
    node names array, edge `start` array, and the `selected.indices` lists.

Pandas error behaviour is made explicit with `Except`:
  * zero records from `to_data_frame()` give a DataFrame with no columns at
    all, so `data['weight']` raises `KeyError`;
  * a non-numeric (string) weight, or an all-null weight column, leaves the
    column with object dtype, and `data['weight'] >= 2` then raises
    `TypeError`; a null weight mixed with numeric ones becomes NaN, and
    `NaN >= 2` is `False`, so such rows are silently dropped.

Weights are modelled as exact rationals (the script's weights are Neo4j
numbers; no claim here depends on float rounding).
-/

namespace GoTNet

/-- A Neo4j `r.weight` value as it lands in the pandas column: a number,
a null (missing property), or a malformed non-numeric value. -/
inductive Wt where
  | num (q : ℚ)
  | null
  | str (s : String)
deriving DecidableEq

/-- One row returned by the Cypher query (source, target, relation, weight). -/
structure RawRecord where
  source : String
  target : String
  relation : String
  weight : Wt
deriving DecidableEq

def isStrWeight (r : RawRecord) : Bool :=
  match r.weight with
  | Wt.str _ => true
  | _ => false

def isNullWeight (r : RawRecord) : Bool :=
  match r.weight with
  | Wt.null => true
  | _ => false

def isNumWeight (r : RawRecord) : Bool :=
  match r.weight with
  | Wt.num _ => true
  | _ => false

/-- `data['weight'] >= 2` for one row of a numeric-dtype column: a numeric
weight is compared, a NaN (null) weight compares false. -/
def keepWeight (r : RawRecord) : Bool :=
  match r.weight with
  | Wt.num q => decide (2 ≤ q)
  | _ => false

/-- Lines 37-43: `data = graph.run(query).to_data_frame()` followed by
`data = data[data['weight'] >= 2]` and `data = data[data['source'] != data['target']]`.
Zero records give a column-less DataFrame (`KeyError` on `data['weight']`);
a string weight, or an all-null weight column, gives an object-dtype column
on which `>= 2` raises `TypeError`. -/
def filteredData (rows : List RawRecord) : Except String (List RawRecord) :=
  if rows.isEmpty = true then
    Except.error "KeyError: weight"
  else if (rows.any isStrWeight || rows.all isNullWeight) = true then
    Except.error "TypeError: object dtype weight compared with int"
  else
    Except.ok ((rows.filter keepWeight).filter (fun r => r.source != r.target))

/-- Line 46: the fixed relation-to-color dict. -/
def color_map (rel : String) : Option String :=
  if rel = "INTERACTS1" then some "purple"
  else if rel = "INTERACTS2" then some "red"
  else if rel = "INTERACTS3" then some "green"
  else if rel = "INTERACTS45" then some "blue"
  else none

/-- Edge attributes as stored by `from_pandas_edgelist(..., edge_attr=True)`:
the `relation` and `weight` columns plus the `edge_color` column assigned on
line 47 (`data['relation'].map(color_map)`, `none` = NaN for unknown kinds). -/
structure EdgeAttrs where
  relation : String
  weight : Wt
  edge_color : Option String
deriving DecidableEq

/-- An edge of the networkx graph: its two endpoints (as first inserted) and
its attribute dict. -/
structure GEdge where
  u : String
  v : String
  attrs : EdgeAttrs
deriving DecidableEq

/-- The attribute dict contributed by one row. -/
def mkAttrs (r : RawRecord) : EdgeAttrs :=
  ⟨r.relation, r.weight, color_map r.relation⟩

/-- Whether an (undirected) edge has exactly the unordered endpoint pair
`{a, b}`. -/
def touches (e : GEdge) (a b : String) : Bool :=
  (e.u == a && e.v == b) || (e.u == b && e.v == a)

/-- Attribute overwrite on the edge with the endpoint pair `{a, b}` (all
three attribute keys are rewritten every time); other edges are untouched. -/
def updEdge (a b : String) (x : EdgeAttrs) (e : GEdge) : GEdge :=
  if touches e a b then ⟨e.u, e.v, x⟩ else e

/-- `G.add_edge(a, b, **attrs)` on an undirected graph: if an edge with the
same unordered endpoint pair exists its attribute dict is overwritten,
otherwise a new edge is appended. -/
def addEdge (es : List GEdge) (a b : String) (x : EdgeAttrs) : List GEdge :=
  if es.any (fun e => touches e a b) then
    es.map (updEdge a b x)
  else
    es ++ [⟨a, b, x⟩]

/-- Node insertion as done by `add_edge`: a node is appended on first sight. -/
def addNode (ns : List String) (n : String) : List String :=
  if ns.contains n then ns else ns ++ [n]

/-- The edge set built by `nx.from_pandas_edgelist` scanning the rows in
order. -/
def buildEdges (rows : List RawRecord) : List GEdge :=
  rows.foldl (fun es r => addEdge es r.source r.target (mkAttrs r)) []

/-- The node list built by `nx.from_pandas_edgelist` (insertion order:
each row adds its source then its target). -/
def buildNodes (rows : List RawRecord) : List String :=
  rows.foldl (fun ns r => addNode (addNode ns r.source) r.target) []

/-- `G.edges(n)`: the edges incident to `n`, each once. -/
def incidentEdges (es : List GEdge) (n : String) : List GEdge :=
  es.filter (fun e => e.u == n || e.v == n)

/-- Per-node attributes stored by the loop on lines 55-60: `degree` is
`len(G.edges(n))`; `relations` keeps the incident `(relation, weight)` pairs
that line 59 joins into the tooltip string (the join itself is presentation
only); `node_color` is the constant `'skyblue'`. -/
structure NodeInfo where
  id : String
  degree : Nat
  relations : List (String × Wt)
  node_color : String
deriving DecidableEq

def nodeInfoOf (es : List GEdge) (n : String) : NodeInfo :=
  ⟨n, (incidentEdges es n).length,
    (incidentEdges es n).map (fun e => (e.attrs.relation, e.attrs.weight)),
    "skyblue"⟩

/-- The graph handed to Bokeh: the node list (`G.nodes()` order), the edge
list, and the node attributes computed by the loop. -/
structure GraphModel where
  nodeIds : List String
  edges : List GEdge
  nodes : List NodeInfo
deriving DecidableEq

def buildModel (kept : List RawRecord) : GraphModel :=
  ⟨buildNodes kept, buildEdges kept, (buildNodes kept).map (nodeInfoOf (buildEdges kept))⟩

/-- The batch pipeline of lines 37-59: preprocessing (which can raise, see
`filteredData`) followed by graph construction. -/
def pipeline (rows : List RawRecord) : Except String GraphModel :=
  Except.map buildModel (filteredData rows)

/-! ### The two CustomJS callbacks

Bokeh exposes the node names as `nodes.data['index']` and the edge source
column as `edges.data['start']`; both callbacks work on positional indices
into those arrays and on the two `selected.indices` lists. -/

/-- JavaScript `sub ∈ s` substring test (`String.prototype.includes`) on
character lists: some suffix of `s` starts with `sub`. -/
def listIncludes (sub : List Char) : List Char → Bool
  | [] => sub.isPrefixOf []
  | c :: t => sub.isPrefixOf (c :: t) || listIncludes sub t

/-- JavaScript `s.toLowerCase()` on the ASCII character names this data
carries: per-character lower-casing. -/
def jsLower (s : String) : List Char :=
  s.toList.map Char.toLower

/-- Line 116: `nodes.data['index'].map((n,i)=>n.toLowerCase().includes(value)?i:null)
.filter(x=>x!==null)` with `value = text.value.toLowerCase()`: the ascending
list of positions whose (lower-cased) name contains the lower-cased query. -/
def matchedIndices (names : List String) (q : String) : List Nat :=
  (List.range names.length).filter
    (fun i => listIncludes (jsLower q) (jsLower (names.getD i "")))

/-- The two `selected.indices` lists of the node and edge data sources. -/
structure SelState where
  nodeSel : List Nat
  edgeSel : List Nat
deriving DecidableEq

/-- Lines 110-129, the `search_callback` body: recompute `node_indices` from
the query, then scan `edges.data['start']` positions, pushing every position
`i` with `node_indices.includes(i) || node_indices.includes(i)` (the source
repeats the same index test twice), and overwrite both selections. -/
def search_callback (names startCol : List String) (q : String)
    (_st : SelState) : SelState :=
  let ni := matchedIndices names q
  let ei := (List.range startCol.length).filter
    (fun i => ni.contains i || ni.contains i)
  ⟨ni, ei⟩

/-- JavaScript `[...new Set(l)]`: drop duplicates, keeping first
occurrences in order. -/
def jsSetDedup (l : List Nat) : List Nat :=
  l.foldl (fun acc x => if acc.contains x then acc else acc ++ [x]) []

/-- Lines 137-153, the `highlight_callback` body: for each edge position
`i`, test `selected.includes(i) || selected.includes(i)` (again the same
index test twice) against the selected node positions; a hit pushes `i` to
`connected_edges` and pushes `i` twice to `connected_nodes`; the selections
become `[...new Set(connected_nodes)]` and `connected_edges`. -/
def highlight_callback (startCol : List String) (selected : List Nat) :
    List Nat × List Nat :=
  let ce := (List.range startCol.length).filter
    (fun i => selected.contains i || selected.contains i)
  (jsSetDedup ((ce.map (fun i => [i, i])).flatten), ce)

/-! ### The highlight recomputation as the spec states it

These two definitions restate section 4.4 of the spec (membership by NodeId
equality against each edge's endpoints) and exist only to be compared with
`highlight_callback`. -/

/-- Spec 4.4: `highlightedEdgeIds` = positions of the edges with at least one
endpoint in the selection `S` (a set of node identifiers). -/
def specHighlightedEdgeIdxs (es : List GEdge) (S : List String) : List Nat :=
  (((List.range es.length).zip es).filter
    (fun p => S.contains p.2.u || S.contains p.2.v)).map Prod.fst

/-- Spec 4.4: `highlightedNodeIds` = `S` united with the opposite endpoint of
every edge having an endpoint in `S`. -/
def specHighlightedNodeIds (es : List GEdge) (S : List String) : List String :=
  S ++ (((es.filter (fun e => S.contains e.u || S.contains e.v)).map
      (fun e => if S.contains e.u then e.v else e.u)).filter
        (fun n => !S.contains n))

end GoTNet

namespace GoTNet

/-! ### Substring semantics of the JS filter -/

theorem listIncludes_nil (s : List Char) : listIncludes [] s = true := by
  cases s <;> simp [listIncludes, List.isPrefixOf]

/-- JS `s.includes(sub)` decides substring (infix) containment. -/
theorem listIncludes_infix_iff (sub s : List Char) :
    listIncludes sub s = true ↔ sub <:+: s := by
  induction s with
  | nil => simp [listIncludes]
  | cons c t ih => simp [listIncludes, List.infix_cons_iff, ih]

theorem getD_of_lt (l : List String) (i : Nat) (hi : i < l.length) :
    l.getD i "" = l.get ⟨i, hi⟩ := by
  simp [List.getD_eq_getElem?_getD, List.getElem?_eq_getElem hi]

/-- Claim C2 counterexample: with the single node `"A"` and the empty query,
the matched index set is `[0]` (JavaScript `includes("")` is true for every
string), not the empty set the claim requires. -/
theorem c2_empty_query_matches_all_counterexample :
    matchedIndices ["A"] "" = [0] ∧ ([0] : List Nat) ≠ [] := by
  constructor
  · rfl
  · simp

/-- Claim C2 (amended): a node position is matched iff its lower-cased name
contains the lower-cased query as a substring; and the empty query matches
every node position (not none). -/
theorem c2_matched_iff_lowercase_substring (names : List String) (q : String) :
    (∀ i, (hi : i < names.length) →
      (i ∈ matchedIndices names q ↔
        jsLower q <:+: jsLower (names.get ⟨i, hi⟩))) ∧
    matchedIndices names "" = List.range names.length := by
  constructor
  · intro i hi
    rw [matchedIndices, List.mem_filter, List.mem_range, getD_of_lt names i hi]
    simp [listIncludes_infix_iff, hi]
  · rw [matchedIndices, List.filter_eq_self]
    intro i _
    have h0 : jsLower "" = [] := by decide
    simp [h0, listIncludes_nil]

/-- Witness for C2 at the node list `["Arya", "Bran"]` and query `"ar"`. -/
theorem c2_matched_iff_lowercase_substring_witness :
    0 ∈ matchedIndices ["Arya", "Bran"] "ar" ↔
      jsLower "ar" <:+: jsLower "Arya" := by
  have h := (c2_matched_iff_lowercase_substring ["Arya", "Bran"] "ar").1 0 (by decide)
  simpa using h

end GoTNet

namespace GoTNet

/-! ### The highlight callback versus the spec -/

/-- A three-node demonstration model: nodes `["A", "B", "C"]` (so node `"C"`
has position 2), edges `A-B` (position 0) and `B-C` (position 1). -/
def demoAttrs : EdgeAttrs :=
  ⟨"INTERACTS1", Wt.num 5, color_map "INTERACTS1"⟩

def demoEdges : List GEdge :=
  [⟨"A", "B", demoAttrs⟩, ⟨"B", "C", demoAttrs⟩]

/-- Claim C1: selecting node `"C"` (position 2 of `["A", "B", "C"]`) must
highlight edge `B-C` (position 1) and nodes `{C, B}`; the source callback
instead tests `selected.includes(i)` for edge positions `i` and returns
empty selections, because no edge position equals the selected node
position.  The code's result diverges from the spec's at this input. -/
theorem c1_highlight_uses_positions_not_endpoints :
    highlight_callback (demoEdges.map GEdge.u) [2] = ([], []) ∧
    specHighlightedEdgeIdxs demoEdges ["C"] = [1] ∧
    specHighlightedNodeIds demoEdges ["C"] = ["C", "B"] := by
  refine ⟨rfl, rfl, rfl⟩

/-! ### Color totality -/

/-- Claim C3: a record whose relation kind is absent from `color_map` flows
through the pipeline, and the resulting edge's `edge_color` is `none`
(pandas `.map` yields NaN on a missing dict key), not a defined fallback
color. -/
theorem c3_unknown_relation_gets_null_color :
    Except.map (fun G => G.edges.map (fun e => e.attrs.edge_color))
      (pipeline [⟨"A", "B", "SOMEKIND", Wt.num 5⟩]) = Except.ok [none] := by
  rfl

/-! ### What the search callback mutates -/

/-- Claim C5 counterexample: with one node `"a"`, one edge, and query `"a"`,
the filter-text-changed handler rewrites the edge selection from `[]` to
`[0]` (and the node selection to `[0]`), so the highlight sets do not
survive the event unchanged. -/
theorem c5_search_changes_highlight_counterexample :
    search_callback ["a", "b"] ["a"] "a" ⟨[], []⟩ = ⟨[0], [0]⟩ ∧
    (⟨[0], [0]⟩ : SelState) ≠ ⟨[], []⟩ := by
  constructor
  · rfl
  · simp

/-- Claim C5 (amended): the filter-text-changed handler overwrites both
`selected.indices` lists with values computed from the query alone -- the
node selection becomes the matched index set and the edge selection the edge
positions contained in it -- discarding, rather than preserving, the prior
selection state. -/
theorem c5_search_rewrites_selections_from_query_alone
    (names startCol : List String) (q : String) (s t : SelState) :
    search_callback names startCol q s = search_callback names startCol q t ∧
    (search_callback names startCol q s).nodeSel = matchedIndices names q ∧
    (search_callback names startCol q s).edgeSel =
      (List.range startCol.length).filter
        (fun i => (matchedIndices names q).contains i) := by
  refine ⟨rfl, rfl, ?_⟩
  simp [search_callback]

/-! ### Error behaviour of the preprocessing -/

/-- Claim C9: zero records from the query do not yield an empty GraphModel;
`to_data_frame()` gives a DataFrame with no columns, so line 41's
`data['weight']` raises `KeyError` and the pipeline dies. -/
theorem c9_empty_result_raises_keyerror :
    pipeline [] = Except.error "KeyError: weight" := by
  rfl

/-- Claim C8 counterexample: a record with a malformed (non-numeric) weight
leaves the pandas weight column with object dtype, and the comparison
`data['weight'] >= 2` raises `TypeError` instead of dropping the record. -/
theorem c8_string_weight_raises_counterexample :
    filteredData [⟨"A", "B", "INTERACTS1", Wt.str "heavy"⟩] =
      Except.error "TypeError: object dtype weight compared with int" := by
  rfl

end GoTNet

namespace GoTNet

/-! ### Shape of a successful pipeline run -/

theorem filteredData_rows_ok {rows kept : List RawRecord}
    (h : filteredData rows = Except.ok kept) :
    kept = (rows.filter keepWeight).filter (fun r => r.source != r.target) := by
  unfold filteredData at h
  split at h
  · exact absurd h (by simp)
  · split at h
    · exact absurd h (by simp)
    · injection h with h
      exact h.symm

theorem kept_rows_ok {rows kept : List RawRecord}
    (h : filteredData rows = Except.ok kept) :
    ∀ r ∈ kept, r.source ≠ r.target ∧ keepWeight r = true := by
  have hk := filteredData_rows_ok h
  subst hk
  intro r hr
  rw [List.mem_filter] at hr
  obtain ⟨hr1, hr2⟩ := hr
  rw [List.mem_filter] at hr1
  exact ⟨by simpa using hr2, hr1.2⟩

theorem pipeline_ok {rows : List RawRecord} {G : GraphModel}
    (h : pipeline rows = Except.ok G) :
    ∃ kept, filteredData rows = Except.ok kept ∧ G = buildModel kept := by
  unfold pipeline at h
  cases hf : filteredData rows with
  | error s => rw [hf] at h; simp [Except.map] at h
  | ok kept =>
      rw [hf] at h
      simp [Except.map] at h
      exact ⟨kept, rfl, h.symm⟩

/-! ### Edge invariants (no self-loops, weight floor) -/

def edgeOK (e : GEdge) : Prop :=
  e.u ≠ e.v ∧ ∃ q, e.attrs.weight = Wt.num q ∧ 2 ≤ q

theorem addEdge_edgeOK {es : List GEdge} {a b : String} {x : EdgeAttrs}
    (hes : ∀ e ∈ es, edgeOK e) (hab : a ≠ b)
    (hx : ∃ q, x.weight = Wt.num q ∧ 2 ≤ q) :
    ∀ e ∈ addEdge es a b x, edgeOK e := by
  unfold addEdge
  split
  · intro e he
    rw [List.mem_map] at he
    obtain ⟨f, hf, rfl⟩ := he
    by_cases ht : touches f a b = true
    · simp only [updEdge, ht, if_true]
      exact ⟨(hes f hf).1, hx⟩
    · simp only [updEdge, ht, if_false]
      exact hes f hf
  · intro e he
    rw [List.mem_append] at he
    rcases he with he | he
    · exact hes e he
    · rw [List.mem_singleton] at he
      subst he
      exact ⟨hab, hx⟩

theorem buildEdges_edgeOK_aux :
    ∀ (rows : List RawRecord) (es : List GEdge),
      (∀ e ∈ es, edgeOK e) →
      (∀ r ∈ rows, r.source ≠ r.target ∧ keepWeight r = true) →
      ∀ e ∈ rows.foldl (fun es r => addEdge es r.source r.target (mkAttrs r)) es,
        edgeOK e := by
  intro rows
  induction rows with
  | nil =>
      intro es hes _
      simpa using hes
  | cons r rest ih =>
      intro es hes hrows
      rw [List.foldl_cons]
      apply ih
      · have hr := hrows r (by simp)
        apply addEdge_edgeOK hes hr.1
        have hk := hr.2
        unfold keepWeight at hk
        cases hw : r.weight with
        | num q =>
            rw [hw] at hk
            exact ⟨q, by simp [mkAttrs, hw], of_decide_eq_true hk⟩
        | null => rw [hw] at hk; cases hk
        | str s => rw [hw] at hk; cases hk
      · intro r' hr'
        exact hrows r' (by simp [hr'])

/-- Claim C6: every edge of the built GraphModel has distinct endpoints and
a numeric weight of at least 2 (the two pandas filters drop self-loops and
sub-threshold or non-numeric weights before graph construction). -/
theorem c6_no_selfloops_and_weight_floor (rows : List RawRecord) (G : GraphModel)
    (h : pipeline rows = Except.ok G) :
    ∀ e ∈ G.edges, e.u ≠ e.v ∧ ∃ q, e.attrs.weight = Wt.num q ∧ 2 ≤ q := by
  obtain ⟨kept, hf, rfl⟩ := pipeline_ok h
  intro e he
  exact buildEdges_edgeOK_aux kept [] (by simp) (kept_rows_ok hf) e he

def dummyEdge : GEdge := ⟨"", "", ⟨"", Wt.null, none⟩⟩

def exRows6 : List RawRecord :=
  [⟨"A", "B", "INTERACTS1", Wt.num 5⟩, ⟨"B", "C", "INTERACTS1", Wt.num 1⟩,
   ⟨"A", "A", "INTERACTS1", Wt.num 5⟩, ⟨"C", "D", "SOMEKIND", Wt.num 3⟩]

def exModel6 : GraphModel := (pipeline exRows6).toOption.getD ⟨[], [], []⟩

def exEdge6 : GEdge := exModel6.edges.getD 0 dummyEdge

/-- Witness for C6 at the spec's example record list. -/
theorem c6_no_selfloops_and_weight_floor_witness :
    exEdge6.u ≠ exEdge6.v ∧ ∃ q, exEdge6.attrs.weight = Wt.num q ∧ 2 ≤ q :=
  c6_no_selfloops_and_weight_floor exRows6 exModel6 (by rfl) exEdge6 (by decide)

/-! ### Degree attribute -/

/-- Claim C7: the `degree` attribute stored for every node equals the number
of edges of the GraphModel incident to that node (each such edge counted
once, whatever its stored orientation). -/
theorem c7_degree_eq_incident_edge_count (rows : List RawRecord) (G : GraphModel)
    (h : pipeline rows = Except.ok G) :
    ∀ ni ∈ G.nodes, ni.degree =
      (G.edges.filter (fun e => e.u == ni.id || e.v == ni.id)).length := by
  obtain ⟨kept, _, rfl⟩ := pipeline_ok h
  intro ni hni
  simp only [buildModel, List.mem_map] at hni
  obtain ⟨n, _, rfl⟩ := hni
  simp [nodeInfoOf, incidentEdges, buildModel]

def dummyNode : NodeInfo := ⟨"", 0, [], ""⟩

def exRows7 : List RawRecord :=
  [⟨"A", "B", "INTERACTS1", Wt.num 5⟩, ⟨"B", "A", "INTERACTS2", Wt.num 3⟩]

def exModel7 : GraphModel := (pipeline exRows7).toOption.getD ⟨[], [], []⟩

def exNode7 : NodeInfo := exModel7.nodes.getD 0 dummyNode

/-- Witness for C7 on records that mention the pair `{A, B}` in both
directions: node `A` still gets degree 1. -/
theorem c7_degree_eq_incident_edge_count_witness :
    exNode7.degree =
      (exModel7.edges.filter
        (fun e => e.u == exNode7.id || e.v == exNode7.id)).length :=
  c7_degree_eq_incident_edge_count exRows7 exModel7 (by rfl) exNode7 (by decide)

end GoTNet

namespace GoTNet

/-! ### Missing versus malformed weights -/

theorem isEmpty_false_of_mem {l : List RawRecord} {r : RawRecord} (h : r ∈ l) :
    l.isEmpty = false := by
  cases l with
  | nil => cases h
  | cons a t => rfl

theorem all_null_false_of_num {l : List RawRecord} {r : RawRecord}
    (hr : r ∈ l) (hn : isNumWeight r = true) :
    l.all isNullWeight = false := by
  cases hall : l.all isNullWeight with
  | false => rfl
  | true =>
      exfalso
      have h := List.all_eq_true.mp hall r hr
      unfold isNumWeight at hn
      unfold isNullWeight at h
      cases hw : r.weight <;> rw [hw] at h hn <;> simp at h hn

theorem any_str_false {l : List RawRecord}
    (hstr : ∀ r ∈ l, isStrWeight r = false) :
    l.any isStrWeight = false := by
  rw [List.any_eq_false]
  intro r hr
  simp [hstr r hr]

theorem keepWeight_and_not_null (r : RawRecord) :
    (keepWeight r && !isNullWeight r) = keepWeight r := by
  unfold keepWeight isNullWeight
  cases r.weight <;> simp

/-- Claim C8 (amended): when the weight column is numeric -- no record
carries a malformed (non-numeric) weight and at least one weight is an
actual number -- the filter raises no error; records with missing weight
become NaN, fail `>= 2` and are dropped, and removing them from the input
beforehand leaves the output unchanged.  (A malformed weight instead raises
`TypeError`, see the counterexample.) -/
theorem c8_null_weights_dropped_without_error (rows : List RawRecord)
    (hstr : ∀ r ∈ rows, isStrWeight r = false)
    (hnum : ∃ r ∈ rows, isNumWeight r = true) :
    filteredData rows =
      Except.ok ((rows.filter keepWeight).filter (fun r => r.source != r.target)) ∧
    filteredData (rows.filter (fun r => !isNullWeight r)) = filteredData rows := by
  obtain ⟨r0, hr0, hn0⟩ := hnum
  have h1 : rows.isEmpty = false := isEmpty_false_of_mem hr0
  have h2 : rows.any isStrWeight = false := any_str_false hstr
  have h3 : rows.all isNullWeight = false := all_null_false_of_num hr0 hn0
  have hok : filteredData rows =
      Except.ok ((rows.filter keepWeight).filter (fun r => r.source != r.target)) := by
    unfold filteredData
    simp [h1, h2, h3]
  refine ⟨hok, ?_⟩
  have hr0' : r0 ∈ rows.filter (fun r => !isNullWeight r) := by
    rw [List.mem_filter]
    refine ⟨hr0, ?_⟩
    unfold isNumWeight at hn0
    unfold isNullWeight
    cases hw : r0.weight <;> rw [hw] at hn0 <;> simp at hn0 ⊢
  have h1' : (rows.filter (fun r => !isNullWeight r)).isEmpty = false :=
    isEmpty_false_of_mem hr0'
  have h2' : (rows.filter (fun r => !isNullWeight r)).any isStrWeight = false := by
    apply any_str_false
    intro r hr
    exact hstr r (List.mem_filter.mp hr).1
  have h3' : (rows.filter (fun r => !isNullWeight r)).all isNullWeight = false := by
    apply all_null_false_of_num hr0' hn0
  have hok' : filteredData (rows.filter (fun r => !isNullWeight r)) =
      Except.ok (((rows.filter (fun r => !isNullWeight r)).filter
        keepWeight).filter (fun r => r.source != r.target)) := by
    unfold filteredData
    simp [h1', h2', h3']
  rw [hok, hok']
  have hcomm : (rows.filter (fun r => !isNullWeight r)).filter keepWeight =
      rows.filter keepWeight := by
    rw [List.filter_filter]
    apply List.filter_congr
    intro r _
    exact keepWeight_and_not_null r
  rw [hcomm]

def exRows8 : List RawRecord :=
  [⟨"A", "B", "INTERACTS1", Wt.num 5⟩, ⟨"A", "C", "INTERACTS1", Wt.null⟩]

/-- Witness for C8 on a numeric-weight record plus a missing-weight record. -/
theorem c8_null_weights_dropped_without_error_witness :
    filteredData exRows8 =
      Except.ok ((exRows8.filter keepWeight).filter
        (fun r => r.source != r.target)) ∧
    filteredData (exRows8.filter (fun r => !isNullWeight r)) =
      filteredData exRows8 :=
  c8_null_weights_dropped_without_error exRows8 (by decide) (by decide)

end GoTNet

namespace GoTNet

/-! ### Unordered-pair deduplication and last-record-wins -/

theorem updEdge_u (a b : String) (x : EdgeAttrs) (e : GEdge) :
    (updEdge a b x e).u = e.u := by
  unfold updEdge
  split <;> rfl

theorem updEdge_v (a b : String) (x : EdgeAttrs) (e : GEdge) :
    (updEdge a b x e).v = e.v := by
  unfold updEdge
  split <;> rfl

theorem touches_updEdge (a b s t : String) (x : EdgeAttrs) (e : GEdge) :
    touches (updEdge a b x e) s t = touches e s t := by
  simp [touches, updEdge_u, updEdge_v]

theorem touches_of_touches {e f : GEdge} {s t : String}
    (h1 : touches f s t = true) (h2 : touches e s t = true) :
    touches e f.u f.v = true := by
  simp only [touches, Bool.or_eq_true, Bool.and_eq_true, beq_iff_eq] at h1 h2 ⊢
  rcases h1 with ⟨h1a, h1b⟩ | ⟨h1a, h1b⟩ <;>
    rcases h2 with ⟨h2a, h2b⟩ | ⟨h2a, h2b⟩ <;>
    subst h1a <;> subst h1b <;> simp [h2a, h2b]

theorem touches_self (a b : String) (x : EdgeAttrs) :
    touches ⟨a, b, x⟩ a b = true := by
  simp [touches]

/-- The invariant tying the edge accumulator to the rows already scanned:
edges have pairwise-distinct unordered endpoint pairs, each edge's attribute
dict is the one of the last scanned row over its pair, and every scanned
row's pair is represented by an edge. -/
def EdgesInv (done : List RawRecord) (es : List GEdge) : Prop :=
  es.Pairwise (fun e f => touches e f.u f.v = false) ∧
  (∀ e ∈ es, ∃ r,
    (done.filter (fun r' => touches e r'.source r'.target)).getLast? = some r ∧
    e.attrs = mkAttrs r) ∧
  (∀ r ∈ done, ∃ e ∈ es, touches e r.source r.target = true)

theorem addEdge_inv {done : List RawRecord} {es : List GEdge} (r : RawRecord)
    (h : EdgesInv done es) :
    EdgesInv (done ++ [r]) (addEdge es r.source r.target (mkAttrs r)) := by
  obtain ⟨hpw, hlast, hcov⟩ := h
  unfold addEdge
  split
  case isTrue hany =>
    have hex : ∃ e ∈ es, touches e r.source r.target = true := by
      simpa using hany
    refine ⟨?_, ?_, ?_⟩
    · rw [List.pairwise_map]
      apply hpw.imp
      intro e f hef
      simpa [touches_updEdge, updEdge_u, updEdge_v] using hef
    · intro e' he'
      rw [List.mem_map] at he'
      obtain ⟨f, hf, rfl⟩ := he'
      by_cases ht : touches f r.source r.target = true
      · refine ⟨r, ?_, by simp [updEdge, ht]⟩
        rw [List.filter_append, List.filter_cons, List.filter_nil]
        simp only [touches_updEdge, ht, if_true]
        exact List.getLast?_concat _
      · obtain ⟨r0, hr0, ha⟩ := hlast f hf
        have hfix : updEdge r.source r.target (mkAttrs r) f = f := by
          simp [updEdge, ht]
        rw [hfix]
        refine ⟨r0, ?_, ha⟩
        rw [List.filter_append, List.filter_cons, List.filter_nil]
        simpa [ht] using hr0
    · intro s hs
      rw [List.mem_append, List.mem_singleton] at hs
      rcases hs with hs | hq
      · obtain ⟨e, he, hte⟩ := hcov s hs
        exact ⟨updEdge r.source r.target (mkAttrs r) e,
          List.mem_map_of_mem _ he, by rw [touches_updEdge]; exact hte⟩
      · rw [hq]
        obtain ⟨e, he, hte⟩ := hex
        exact ⟨updEdge r.source r.target (mkAttrs r) e,
          List.mem_map_of_mem _ he, by rw [touches_updEdge]; exact hte⟩
  case isFalse hany =>
    have hnone : ∀ e ∈ es, touches e r.source r.target = false := by
      intro e he
      cases ht : touches e r.source r.target with
      | false => rfl
      | true => exact absurd (List.any_eq_true.mpr ⟨e, he, ht⟩) hany
    refine ⟨?_, ?_, ?_⟩
    · rw [List.pairwise_append]
      refine ⟨hpw, List.pairwise_singleton _ _, ?_⟩
      intro e he f hf
      rw [List.mem_singleton] at hf
      subst hf
      exact hnone e he
    · intro e' he'
      rw [List.mem_append, List.mem_singleton] at he'
      rcases he' with he' | hq
      · obtain ⟨r0, hr0, ha⟩ := hlast e' he'
        refine ⟨r0, ?_, ha⟩
        rw [List.filter_append, List.filter_cons, List.filter_nil]
        simpa [hnone e' he'] using hr0
      · rw [hq]
        refine ⟨r, ?_, rfl⟩
        rw [List.filter_append, List.filter_cons, List.filter_nil]
        have hempty : done.filter
            (fun r' => touches ⟨r.source, r.target, mkAttrs r⟩ r'.source r'.target) =
            [] := by
          rw [List.filter_eq_nil_iff]
          intro r' hr' hc
          obtain ⟨e, he, hte⟩ := hcov r' hr'
          have habs := touches_of_touches hc hte
          rw [hnone e he] at habs
          cases habs
        rw [hempty]
        simp [touches_self]
    · intro s hs
      rw [List.mem_append, List.mem_singleton] at hs
      rcases hs with hs | hq
      · obtain ⟨e, he, hte⟩ := hcov s hs
        exact ⟨e, List.mem_append_left _ he, hte⟩
      · rw [hq]
        exact ⟨⟨r.source, r.target, mkAttrs r⟩,
          List.mem_append_right _ (by simp), touches_self _ _ _⟩

theorem buildEdges_inv_aux :
    ∀ (todo done : List RawRecord) (es : List GEdge), EdgesInv done es →
      EdgesInv (done ++ todo)
        (todo.foldl (fun es r => addEdge es r.source r.target (mkAttrs r)) es) := by
  intro todo
  induction todo with
  | nil =>
      intro done es h
      simpa using h
  | cons r rest ih =>
      intro done es h
      have h2 := ih (done ++ [r]) _ (addEdge_inv r h)
      simpa [List.append_assoc] using h2

theorem buildEdges_inv (rows : List RawRecord) : EdgesInv rows (buildEdges rows) := by
  have h := buildEdges_inv_aux rows [] [] ⟨List.Pairwise.nil, by simp, by simp⟩
  simpa [buildEdges] using h

/-- Claim C10: the built graph holds at most one edge per unordered endpoint
pair, and the surviving attribute dict (relation, weight, color) is the one
of the last filtered record over that pair. -/
theorem c10_unordered_pair_dedup_last_wins (rows kept : List RawRecord)
    (G : GraphModel) (hf : filteredData rows = Except.ok kept)
    (h : pipeline rows = Except.ok G) :
    G.edges.Pairwise (fun e f => touches e f.u f.v = false) ∧
    ∀ e ∈ G.edges, ∃ r,
      (kept.filter (fun r' => touches e r'.source r'.target)).getLast? = some r ∧
      e.attrs = mkAttrs r := by
  obtain ⟨kept', hf', rfl⟩ := pipeline_ok h
  rw [hf] at hf'
  injection hf' with hk
  subst hk
  obtain ⟨hpw, hlast, _⟩ := buildEdges_inv kept
  exact ⟨hpw, hlast⟩

def exRows10 : List RawRecord :=
  [⟨"A", "B", "INTERACTS1", Wt.num 5⟩, ⟨"B", "A", "INTERACTS2", Wt.num 3⟩,
   ⟨"C", "A", "INTERACTS3", Wt.num 4⟩]

def exModel10 : GraphModel := (pipeline exRows10).toOption.getD ⟨[], [], []⟩

def exEdge10 : GEdge := exModel10.edges.getD 0 dummyEdge

/-- Witness for C10: the rows mention the pair `{A, B}` twice (once per
direction); the single surviving edge carries the second record's
attributes. -/
theorem c10_unordered_pair_dedup_last_wins_witness :
    exEdge10.attrs = mkAttrs ⟨"B", "A", "INTERACTS2", Wt.num 3⟩ := by
  obtain ⟨r, hr, ha⟩ :=
    (c10_unordered_pair_dedup_last_wins exRows10 exRows10 exModel10
      (by rfl) (by rfl)).2 exEdge10 (by decide)
  have hval : (exRows10.filter
      (fun r' => touches exEdge10 r'.source r'.target)).getLast? =
      some ⟨"B", "A", "INTERACTS2", Wt.num 3⟩ := by decide
  rw [hval] at hr
  injection hr with hr
  rw [ha, ← hr]

end GoTNet
